import Mathlib

/-!
Shallow embedding of `tixelbox/prelude.py` (scannertools).

Python module-level mutable globals (`STORAGE`, `LOCAL_STORAGE`), the
temp-file allocator and the external-process invocations are modelled by an
explicit state record `St` threaded through the functions that touch them.
The external `ffmpeg` process is an oracle `check_call : String → Bool`
(true = exit status 0); each invocation is recorded in `St.calls`.
Python exceptions are `Except String`.  Machine floats in the source occur
only as times/fps; they are modelled as rationals, with Python `int()`
truncation made explicit.
-/

namespace Tixelbox

/-- Python `int()` applied to a (finite) numeric value: truncation toward
zero, modelled on rationals. -/
def pyInt (q : ℚ) : ℤ := if 0 ≤ q then ⌊q⌋ else ⌈q⌉

/-- Python `a % b` on floats/rationals for `b ≠ 0`: `a - b * floor (a / b)`. -/
def qmod (a b : ℚ) : ℚ := a - b * ⌊a / b⌋

/-- Python truthiness of an optional bool (`None` and `False` are falsy),
as used by `if not LOCAL_STORAGE`. -/
def pyTruthy (b : Option Bool) : Bool := b.getD false

/-- `storehouse.StorageConfig`: the code only ever builds a POSIX config or
a GCS config for a bucket. -/
inductive StorageConfig where
  | posix : StorageConfig
  | gcs : String → StorageConfig
deriving DecidableEq, Repr

def StorageConfig.make_posix_config : StorageConfig := StorageConfig.posix

def StorageConfig.make_gcs_config (bucket : String) : StorageConfig :=
  StorageConfig.gcs bucket

/-- `storehouse.StorageBackend`: an opaque handle determined by the config
it was made from (the code only creates it and passes it around). -/
structure StorageBackend where
  config : StorageConfig
deriving DecidableEq, Repr

def StorageBackend.make_from_config (c : StorageConfig) : StorageBackend :=
  StorageBackend.mk c

/-- The module-level mutable state of `prelude.py` plus the bits of the
outside world the module mutates: `STORAGE` and `LOCAL_STORAGE` are the
globals; `tempCounter` numbers fresh temporary files; `calls` is the list
of external commands executed so far (via `subprocess.check_call`). -/
structure St where
  STORAGE : Option StorageBackend
  LOCAL_STORAGE : Option Bool
  tempCounter : Nat
  calls : List String
deriving DecidableEq, Repr

/-- `init_storage(bucket=None)`: builds a GCS config for the bucket (or a
POSIX config when no bucket), sets `LOCAL_STORAGE` accordingly and sets
`STORAGE` to the backend made from that config. -/
def init_storage (bucket : Option String) (st : St) : St :=
  match bucket with
  | some b =>
      St.mk
        (some (StorageBackend.make_from_config (StorageConfig.make_gcs_config b)))
        (some false) st.tempCounter st.calls
  | none =>
      St.mk
        (some (StorageBackend.make_from_config StorageConfig.make_posix_config))
        (some true) st.tempCounter st.calls

/-- `get_storage()`: initializes storage with the defaults when `STORAGE`
is unset, then returns `STORAGE`. -/
def get_storage (st : St) : StorageBackend × St :=
  match st.STORAGE with
  | some b => (b, st)
  | none =>
      let st1 := init_storage none st
      (st1.STORAGE.getD (StorageBackend.make_from_config StorageConfig.make_posix_config),
       st1)

/-- `tempfile.NamedTemporaryFile(suffix=s, delete=False).name`: a fresh
path ending in the suffix, numbered by the state's `tempCounter`. -/
def tempName (k : Nat) (suffix : String) : String :=
  "/tmp/tmp" ++ toString k ++ suffix

/-- Zero-padding of `toString z` to the given width, as Python
`'{:0Nd}'.format` does for nonnegative values. -/
def padZ (width : Nat) (z : ℤ) : String :=
  let s := toString z
  if s.length < width then String.mk (List.replicate (width - s.length) '0') ++ s
  else s

/-- `ffmpeg_fmt_time(t)`: `HH:MM:SS.mmm` built with Python `int()` and
float `%`, modelled on rationals. -/
def ffmpeg_fmt_time (t : ℚ) : String :=
  padZ 2 (pyInt (t / 3600)) ++ ":" ++ padZ 2 (pyInt (qmod (t / 60) 60)) ++ ":" ++
    padZ 2 (pyInt (qmod t 60)) ++ "." ++ padZ 3 (pyInt (qmod (t * 1000) 1000))

/-- The command line `'ffmpeg -y {} -i "{}" {} "{}"'.format(start_str,
input_path, end_str, output_path)` built inside `ffmpeg_extract`. -/
def ffmpeg_cmd (input_path outPath : String) (segment : Option (ℚ × ℚ)) : String :=
  let startEnd : String × String :=
    match segment with
    | some se =>
        ("-ss " ++ ffmpeg_fmt_time se.1, "-t " ++ ffmpeg_fmt_time (se.2 - se.1))
    | none => ("", "")
  "ffmpeg -y " ++ startEnd.1 ++ " -i \"" ++ input_path ++ "\" " ++
    startEnd.2 ++ " \"" ++ outPath ++ "\""

/-- `ffmpeg_extract(input_path, output_ext=None, output_path=None,
segment=None)`: raises unless storage is local; resolves the output path
(asserting `output_ext is not None` when no path is given, and then taking
a fresh temp file with suffix `'.' + output_ext`); builds the ffmpeg
command line; runs it once via `subprocess.check_call` (recorded in
`St.calls`, failure = `CalledProcessError`); returns the output path. -/
def ffmpeg_extract (check_call : String → Bool) (st : St) (input_path : String)
    (output_ext : Option String) (output_path : Option String)
    (segment : Option (ℚ × ℚ)) : Except String String × St :=
  if ¬ pyTruthy st.LOCAL_STORAGE then
    (Except.error "Only works on locally stored files right now.", st)
  else
    let resolved : Except String (String × St) :=
      match output_path with
      | some p => Except.ok (p, st)
      | none =>
          match output_ext with
          | none => Except.error "AssertionError: output_ext is not None"
          | some ext =>
              Except.ok (tempName st.tempCounter ("." ++ ext),
                St.mk st.STORAGE st.LOCAL_STORAGE (st.tempCounter + 1) st.calls)
    match resolved with
    | Except.error e => (Except.error e, st)
    | Except.ok (outPath, st1) =>
        let cmd := ffmpeg_cmd input_path outPath segment
        let st2 := St.mk st1.STORAGE st1.LOCAL_STORAGE st1.tempCounter
          (st1.calls ++ [cmd])
        if check_call cmd then (Except.ok outPath, st2)
        else (Except.error "CalledProcessError", st2)

/-- A decoded frame: a 2-D numpy array, modelled as rows of integer
pixels. -/
abbrev Img := List (List ℤ)

/-- `hwang.Decoder(...).video_index`: metadata of the decoded video. -/
structure VideoIndex where
  frame_width : Nat
  frame_height : Nat
  fps : ℚ
  frames : Nat
  duration : ℚ

/-- `hwang.Decoder`: the external frame-accurate decoder; `retrieve` is its
native frame-fetching entry point, taken as an abstract function of the
requested frame numbers (a Python list of ints, or `None`). -/
structure Decoder where
  video_index : VideoIndex
  retrieve : Option (List (Option ℤ)) → List Img

/-- `Video`: holds the construction path and the decoder, nothing else. -/
structure Video where
  _path : String
  _decoder : Decoder

/-- `Audio`: holds the construction path. -/
structure Audio where
  _path : String
deriving DecidableEq, Repr

namespace Video

/-- `Video.path()`: returns `self._path`. Methods are modelled as
returning their value together with the (possibly updated) object. -/
def path (v : Video) : String × Video := (v._path, v)

/-- `Video.scanner_name()`: returns `self.path()`. -/
def scanner_name (v : Video) : String × Video := ((v.path).1, v)

/-- `Video.width()`. -/
def width (v : Video) : Nat × Video := (v._decoder.video_index.frame_width, v)

/-- `Video.height()`. -/
def height (v : Video) : Nat × Video := (v._decoder.video_index.frame_height, v)

/-- `Video.fps()`. -/
def fps (v : Video) : ℚ × Video := (v._decoder.video_index.fps, v)

/-- `Video.num_frames()`. -/
def num_frames (v : Video) : Nat × Video := (v._decoder.video_index.frames, v)

/-- `Video.duration()`. -/
def duration (v : Video) : ℚ × Video := (v._decoder.video_index.duration, v)

/-- `Video.frames(numbers=None, times=None)`: when times are given,
converts each time `t` to the frame number `int(t * self.fps())` and
delegates to `self._decoder.retrieve`. -/
def frames (v : Video) (numbers : Option (List (Option ℤ)))
    (times : Option (List ℚ)) : List Img × Video :=
  match times with
  | some ts =>
      (v._decoder.retrieve (some (ts.map (fun t => some (pyInt (t * (v.fps).1))))), v)
  | none => (v._decoder.retrieve numbers, v)

/-- `Video.frame(number=None, time=None)`: `self.frames(...)[0]` (Python
`[0]` on an empty result raises, hence the `Option`). -/
def frame (v : Video) (number : Option ℤ) (time : Option ℚ) :
    Option Img × Video :=
  match time with
  | some t => ((v.frames none (some [t])).1.head?, v)
  | none => ((v.frames (some [number]) none).1.head?, v)

/-- `Video.audio()`: extracts a `.wav` via `ffmpeg_extract` and wraps the
result path in an `Audio`. -/
def audio (v : Video) (check_call : String → Bool) (st : St) :
    Except String Audio × St :=
  match ffmpeg_extract check_call st (v.path).1 (some ".wav") none none with
  | (Except.ok p, st1) => (Except.ok (Audio.mk p), st1)
  | (Except.error e, st1) => (Except.error e, st1)

/-- `Video.extract(path=None, ext='.mp4', segment=None)`: delegates to
`ffmpeg_extract` with `self.path()` as input. -/
def extract (v : Video) (check_call : String → Bool) (st : St)
    (path : Option String) (ext : String) (segment : Option (ℚ × ℚ)) :
    Except String String × St :=
  ffmpeg_extract check_call st (v.path).1 (some ext) path segment

end Video

/-- `np.zeros((h, w))`: an all-zero `h × w` image (the dtype carries no
information once pixels are integers). -/
def np_zeros (h w : Nat) : Img := List.replicate h (List.replicate w 0)

/-- `img.shape` of a 2-D array: (number of rows, number of columns). -/
def Img.shape (im : Img) : Nat × Nat := (im.length, (im.headD []).length)

/-- `np.hstack`: horizontal stacking of equal-height images — row `i` of
the result is the concatenation of the rows `i`. -/
def np_hstack : List Img → Img
  | [] => []
  | [a] => a
  | a :: rest => List.zipWith (fun r₁ r₂ => r₁ ++ r₂) a (np_hstack rest)

/-- `np.vstack`: vertical stacking — concatenation of the row lists. -/
def np_vstack (l : List Img) : Img := l.flatten

/-- The black padding image `np.zeros(imgs[0].shape, dtype=imgs[0].dtype)`
used by `tile`. -/
def blackOf (imgs : List Img) : Img :=
  np_zeros (Img.shape (imgs.headD [])).1 (Img.shape (imgs.headD [])).2

/-- The row/column computation at the top of `tile`: when neither is given,
`rows = int(math.sqrt(len(imgs)))`; then whichever is still unset is the
ceiling division of `len(imgs)` by the other (Python 2 `/` on ints).
`none` models the `ZeroDivisionError` raised when the divisor is 0.
`int(math.sqrt(n))` is modelled as the exact integer square root. -/
def tileDims (n : Nat) (rows? cols? : Option Nat) : Option (Nat × Nat) :=
  let rows1 : Option Nat :=
    match rows?, cols? with
    | none, none => some (Nat.sqrt n)
    | _, _ => rows?
  match rows1, cols? with
  | none, none => none
  | none, some c => if c = 0 then none else some ((n + c - 1) / c, c)
  | some r, _ => if r = 0 then none else some (r, (n + r - 1) / r)

/-- `tile(imgs, rows=None, cols=None)`: computes the grid dimensions, pads
the caller's list in place with black images when `rows * cols` differs
from `len(imgs)`, and returns the vertical stack of the horizontal stacks
of the `cols`-sized slices.  The result is `(grid?, final list)`: `grid?`
is `none` where Python raises (`ZeroDivisionError` in the dimension
computation — before any mutation — or `np.vstack`/`np.hstack` on an empty
input when a dimension is 0); the second component is the list as the
caller observes it afterwards. -/
def tile (imgs : List Img) (rows? cols? : Option Nat) : Option Img × List Img :=
  match tileDims imgs.length rows? cols? with
  | none => (none, imgs)
  | some rc =>
      let r := rc.1
      let c := rc.2
      let diff := r * c - imgs.length
      let imgs1 := if diff ≠ 0 then imgs ++ List.replicate diff (blackOf imgs) else imgs
      if r = 0 ∨ c = 0 then (none, imgs1)
      else
        (some (np_vstack ((List.range r).map
            (fun i => np_hstack ((imgs1.drop (i * c)).take c)))),
         imgs1)

/-- The image list as `tile` leaves it: extended in place with black
images when `rows * cols - len(imgs)` is nonzero (the `imgs.extend(...)`
in `tile`). -/
def paddedImgs (imgs : List Img) (r c : Nat) : List Img :=
  if (r * c - imgs.length) ≠ 0 then
    imgs ++ List.replicate (r * c - imgs.length) (blackOf imgs)
  else imgs

/-- Cell `k` (row-major) of the grid the spec describes: the `k`-th input
image, or a black image of the first image's shape when `k` is a missing
cell. -/
def cellAt (imgs : List Img) (k : Nat) : Img := imgs.getD k (blackOf imgs)

/-- The spec's description of `tile`'s result: a rows-by-cols grid — a
vertical stack of `r` rows, each the horizontal stack of `c` cells, where
cell `(i, j)` is input image `i * c + j` and missing cells are black. -/
def gridSpec (imgs : List Img) (r c : Nat) : Img :=
  np_vstack ((List.range r).map
    (fun i => np_hstack ((List.range c).map (fun j => cellAt imgs (i * c + j)))))

/-- Python values as they flow through `autobatch`: what matters to the
wrapper is only whether a value `isinstance(..., list)`. -/
inductive PyVal where
  | int : ℤ → PyVal
  | str : String → PyVal
  | list : List PyVal → PyVal
deriving Repr

/-- `isinstance(v, list)`. -/
def pyIsList : PyVal → Bool
  | PyVal.list _ => true
  | _ => false

/-- Python `v[0]` on an arbitrary value: defined only on nonempty lists
(otherwise Python raises). -/
def pyIndex (v : PyVal) (i : Nat) : Option PyVal :=
  match v with
  | PyVal.list xs => xs[i]?
  | _ => none

/-- The integer entries of `uniforms` (uniform positional indices). -/
def uniformPositions (uniforms : List (ℤ ⊕ String)) : List ℤ :=
  uniforms.filterMap (fun u => match u with | Sum.inl i => some i | Sum.inr _ => none)

/-- The string entries of `uniforms` (uniform keyword names). -/
def uniformKeywords (uniforms : List (ℤ ⊕ String)) : List String :=
  uniforms.filterMap (fun u => match u with | Sum.inr k => some k | Sum.inl _ => none)

/-- The `newfn` a function decorated with `@autobatch(uniforms)` becomes.
`fn` is the wrapped function (an oracle on positional and keyword
arguments).  The probe argument `next(iter(set(...) - set(...)))` is
modelled as the first non-uniform positional index (CPython iterates small
ints in ascending order), resp. the first non-uniform keyword in dict
order; which non-uniform argument is probed does not matter to the claims,
which constrain all of them alike.  `none` models the `StopIteration`
raised when every argument is uniform, and the `TypeError`/`IndexError` of
`res[0]` when `fn`'s result is not a nonempty list. -/
def autobatch (uniforms : List (ℤ ⊕ String))
    (fn : List PyVal → List (String × PyVal) → PyVal)
    (args : List PyVal) (kwargs : List (String × PyVal)) : Option PyVal :=
  let positions := uniformPositions uniforms
  let keywords := uniformKeywords uniforms
  let nonuniform? : Option PyVal :=
    if args.length > 0 then
      (((List.range args.length).filter
          (fun i => ! positions.contains (Int.ofNat i))).head?).bind
        (fun i => args[i]?)
    else
      ((kwargs.filter (fun kv => ! keywords.contains kv.1)).head?).map Prod.snd
  match nonuniform? with
  | none => none
  | some nonuniform =>
      let batched := pyIsList nonuniform
      if batched then some (fn args kwargs)
      else
        let args1 := args.enum.map
          (fun ix => if positions.contains (Int.ofNat ix.1) then ix.2
                     else PyVal.list [ix.2])
        let kwargs1 := kwargs.map
          (fun kv => if keywords.contains kv.1 then kv
                     else (kv.1, PyVal.list [kv.2]))
        pyIndex (fn args1 kwargs1) 0

/-- `Video.montage(frames, rows=None, cols=None)`: fetches the frames and
tiles them (the tiling mutates only the local frame list). -/
def Video.montage (v : Video) (frames : List (Option ℤ))
    (rows? cols? : Option Nat) : Option Img × Video :=
  ((tile ((v.frames (some frames) none).1) rows? cols?).1, v)

/-- `Audio.path()`. -/
def Audio.path (a : Audio) : String × Audio := (a._path, a)

/-- `Audio.extract(path=None, ext='.wav', segment=None)`: delegates to
`ffmpeg_extract` with `self.path()` as input. -/
def Audio.extract (a : Audio) (check_call : String → Bool) (st : St)
    (path : Option String) (ext : String) (segment : Option (ℚ × ℚ)) :
    Except String String × St :=
  ffmpeg_extract check_call st (a.path).1 (some ext) path segment

/-- A sample function for exercising `autobatch`: returns its positional
arguments as a Python list. -/
def fnProbe : List PyVal → List (String × PyVal) → PyVal :=
  fun args _ => PyVal.list args

/-! ## Theorems -/

/-- The ceiling division `(n + d - 1) / d` is positive and covers `n`. -/
theorem ceil_div_cover (n d : Nat) (hn : 0 < n) (hd : 0 < d) :
    0 < (n + d - 1) / d ∧ n ≤ d * ((n + d - 1) / d) := by
  constructor
  · exact Nat.div_pos (by omega) hd
  · have hq := Nat.div_add_mod (n + d - 1) d
    have hm := Nat.mod_lt (n + d - 1) hd
    have hrel : (n + d - 1) + 1 = n + d := by omega
    linarith [hq, hm, hrel]

/-- The `rows`-given branch of the dimension computation in `tile`. -/
theorem tileDims_rowsBranch (n r c r0 : Nat) (hn : 0 < n)
    (h : (if r0 = 0 then none
          else some (r0, (n + r0 - 1) / r0) : Option (Nat × Nat)) = some (r, c)) :
    r = r0 ∧ c = (n + r0 - 1) / r0 ∧ 0 < r ∧ 0 < c ∧ n ≤ r * c := by
  split at h
  · exact absurd h (by simp)
  · rename_i hs
    simp only [Option.some.injEq, Prod.mk.injEq] at h
    obtain ⟨h1, h2⟩ := h
    subst h1
    subst h2
    obtain ⟨k1, k2⟩ := ceil_div_cover n r0 (by exact hn) (Nat.pos_of_ne_zero hs)
    exact ⟨rfl, rfl, Nat.pos_of_ne_zero hs, k1, k2⟩

/-- The `cols`-given branch of the dimension computation in `tile`. -/
theorem tileDims_colsBranch (n r c c0 : Nat) (hn : 0 < n)
    (h : (if c0 = 0 then none
          else some ((n + c0 - 1) / c0, c0) : Option (Nat × Nat)) = some (r, c)) :
    c = c0 ∧ r = (n + c0 - 1) / c0 ∧ 0 < r ∧ 0 < c ∧ n ≤ r * c := by
  split at h
  · exact absurd h (by simp)
  · rename_i hs
    simp only [Option.some.injEq, Prod.mk.injEq] at h
    obtain ⟨h1, h2⟩ := h
    subst h1
    subst h2
    obtain ⟨k1, k2⟩ := ceil_div_cover n c0 (by exact hn) (Nat.pos_of_ne_zero hs)
    refine ⟨rfl, rfl, k1, Nat.pos_of_ne_zero hs, ?_⟩
    rw [mul_comm]
    exact k2

/-- The dimensions `tileDims` produces are positive and cover the input:
`n ≤ r * c` (for a nonempty input list). -/
theorem tileDims_props (n : Nat) (ro co : Option Nat) (r c : Nat) (hn : 0 < n)
    (h : tileDims n ro co = some (r, c)) : 0 < r ∧ 0 < c ∧ n ≤ r * c := by
  unfold tileDims at h
  rcases ro with _ | r0 <;> rcases co with _ | c0
  · exact (tileDims_rowsBranch n r c (Nat.sqrt n) hn h).2.2
  · exact (tileDims_colsBranch n r c c0 hn h).2.2
  · exact (tileDims_rowsBranch n r c r0 hn h).2.2
  · exact (tileDims_rowsBranch n r c r0 hn h).2.2

/-- A `take`/`drop` slice of a list, described cellwise. -/
theorem take_drop_eq_map_getD {α : Type _} (L : List α) (d : α) (m c : Nat)
    (h : m + c ≤ L.length) :
    (L.drop m).take c = (List.range c).map (fun j => L.getD (m + j) d) := by
  apply List.ext_getElem
  · simp only [List.length_take, List.length_drop, List.length_map,
      List.length_range]
    omega
  · intro i h1 h2
    have h1' : i < c ∧ i < L.length - m := by simpa using h1
    have hi : i < c := h1'.1
    have hm : m + i < L.length := by omega
    rw [List.getElem_take, List.getElem_drop, List.getElem_map,
      List.getElem_range, List.getD_eq_getElem L d hm]

/-- Reading a black-padded list with black as the default is reading the
original list with black as the default. -/
theorem getD_append_replicate_self {α : Type _} (l : List α) (q k : Nat) (b : α) :
    (l ++ List.replicate q b).getD k b = l.getD k b := by
  rw [List.getD_eq_getElem?_getD, List.getD_eq_getElem?_getD,
    List.getElem?_append]
  split
  · rfl
  · rw [List.getElem?_replicate]
    split <;> simp_all [List.getElem?_eq_none, le_of_not_lt]

/-- C5: `init_storage` configures storage by delegation only: with
`bucket=None` it builds a POSIX config and sets `LOCAL_STORAGE = True`;
with a bucket it builds a GCS config for that bucket and sets
`LOCAL_STORAGE = False`; in both cases `STORAGE` becomes the backend made
from that config and no other part of the state changes. -/
theorem init_storage_delegation (st : St) :
    (∀ b : String, init_storage (some b) st =
      St.mk
        (some (StorageBackend.make_from_config (StorageConfig.make_gcs_config b)))
        (some false) st.tempCounter st.calls)
    ∧ init_storage none st =
      St.mk
        (some (StorageBackend.make_from_config StorageConfig.make_posix_config))
        (some true) st.tempCounter st.calls :=
  ⟨fun _ => rfl, rfl⟩

/-- C6: `get_storage` is idempotent: when `STORAGE` is unset it first
initializes storage with the local defaults; a second call returns the
same backend and leaves the state exactly as after the first call. -/
theorem get_storage_idempotent (st : St) :
    get_storage ((get_storage st).2) = get_storage st
    ∧ (st.STORAGE = none → (get_storage st).2 = init_storage none st)
    ∧ (∀ b, st.STORAGE = some b → get_storage st = (b, st)) := by
  refine ⟨?_, ?_, ?_⟩
  · cases h : st.STORAGE with
    | some b => simp [get_storage, h]
    | none => simp [get_storage, h, init_storage]
  · intro h
    simp [get_storage, h]
  · intro b h
    simp [get_storage, h]

/-- Witness for C6 at the initial state (both globals `None`). -/
theorem get_storage_idempotent_witness :
    get_storage ((get_storage (St.mk none none 0 [])).2) =
      get_storage (St.mk none none 0 [])
    ∧ (get_storage (St.mk none none 0 [])).2 =
      init_storage none (St.mk none none 0 []) :=
  ⟨(get_storage_idempotent (St.mk none none 0 [])).1,
   (get_storage_idempotent (St.mk none none 0 [])).2.1 rfl⟩

/-- C7: a `Video` holds no state machine: every accessor leaves the
object's fields unchanged, `path()` returns the construction path, and
`scanner_name()` equals `path()`. -/
theorem video_accessors_pure (v : Video) :
    (v.path).2 = v ∧ (v.scanner_name).2 = v ∧ (v.width).2 = v
    ∧ (v.height).2 = v ∧ (v.fps).2 = v ∧ (v.num_frames).2 = v
    ∧ (v.duration).2 = v
    ∧ (∀ n t, (v.frame n t).2 = v)
    ∧ (∀ ns ts, (v.frames ns ts).2 = v)
    ∧ (∀ fs r c, (v.montage fs r c).2 = v)
    ∧ (v.path).1 = v._path
    ∧ (v.scanner_name).1 = (v.path).1 := by
  refine ⟨rfl, rfl, rfl, rfl, rfl, rfl, rfl, ?_, ?_, ?_, rfl, rfl⟩
  · intro n t; cases t <;> rfl
  · intro ns ts; cases ts <;> rfl
  · intro fs r c; rfl

/-- C4: frame decoding is fully delegated: `frames(numbers)` returns
exactly what the decoder's `retrieve` returns for those numbers; with
times, each time `t` becomes the frame number `int(t * fps())`; hence
`frame(time=t)` equals `frame(number=int(t * fps()))`. -/
theorem frames_delegation (v : Video) :
    (∀ ns, (v.frames ns none).1 = v._decoder.retrieve ns)
    ∧ (∀ ns ts, (v.frames ns (some ts)).1 =
        v._decoder.retrieve (some (ts.map (fun t => some (pyInt (t * (v.fps).1))))))
    ∧ (∀ t : ℚ, (v.frame none (some t)).1 =
        (v.frame (some (pyInt (t * (v.fps).1))) none).1) :=
  ⟨fun _ => rfl, fun _ _ => rfl, fun _ => rfl⟩

/-- C8: when storage is not configured as local, `ffmpeg_extract` — and
hence `Video.extract`, `Video.audio` and `Audio.extract` — raises
`"Only works on locally stored files right now."` before creating any
output file or invoking any process, leaving the state unchanged. -/
theorem nonlocal_storage_raises (check_call : String → Bool) (st : St)
    (h : pyTruthy st.LOCAL_STORAGE = false) :
    (∀ inp ext outp seg, ffmpeg_extract check_call st inp ext outp seg =
      (Except.error "Only works on locally stored files right now.", st))
    ∧ (∀ (v : Video) p e sg, v.extract check_call st p e sg =
      (Except.error "Only works on locally stored files right now.", st))
    ∧ (∀ v : Video, v.audio check_call st =
      (Except.error "Only works on locally stored files right now.", st))
    ∧ (∀ (a : Audio) p e sg, a.extract check_call st p e sg =
      (Except.error "Only works on locally stored files right now.", st)) := by
  have hmain : ∀ inp ext outp seg, ffmpeg_extract check_call st inp ext outp seg =
      (Except.error "Only works on locally stored files right now.", st) := by
    intro inp ext outp seg
    simp [ffmpeg_extract, h]
  refine ⟨hmain, ?_, ?_, ?_⟩
  · intro v p e sg
    simp [Video.extract, hmain]
  · intro v
    simp [Video.audio, hmain]
  · intro a p e sg
    simp [Audio.extract, hmain]

/-- Witness for C8: extraction with `LOCAL_STORAGE = False` fails and
leaves the state untouched. -/
theorem nonlocal_storage_raises_witness :
    ffmpeg_extract (fun _ => true) (St.mk none (some false) 0 [])
      "in.mp4" none (some "out.avi") none =
    (Except.error "Only works on locally stored files right now.",
      St.mk none (some false) 0 []) :=
  (nonlocal_storage_raises (fun _ => true) (St.mk none (some false) 0 []) rfl).1
    "in.mp4" none (some "out.avi") none

/-- C3: when `output_path` is provided, `ffmpeg_extract` returns exactly
it; when it is `None`, `output_ext` must be provided (else the assertion
fails) and the result is a fresh temp-file path ending in
`'.' + output_ext`; `Video.extract` and `Audio.extract` return the value
of the delegated `ffmpeg_extract` call on the object's path. -/
theorem ffmpeg_extract_output_path (check_call : String → Bool) (st : St)
    (inp : String) (seg : Option (ℚ × ℚ))
    (hls : pyTruthy st.LOCAL_STORAGE = true) :
    (∀ p ext r, (ffmpeg_extract check_call st inp ext (some p) seg).1 = Except.ok r →
      r = p)
    ∧ ((ffmpeg_extract check_call st inp none none seg).1 =
        Except.error "AssertionError: output_ext is not None")
    ∧ (∀ ext r, (ffmpeg_extract check_call st inp (some ext) none seg).1 = Except.ok r →
        r = tempName st.tempCounter ("." ++ ext) ∧ ∃ pre, r = pre ++ ("." ++ ext))
    ∧ (∀ (v : Video) p e, v.extract check_call st p e seg =
        ffmpeg_extract check_call st (v.path).1 (some e) p seg)
    ∧ (∀ (a : Audio) p e, a.extract check_call st p e seg =
        ffmpeg_extract check_call st (a.path).1 (some e) p seg) := by
  refine ⟨?_, ?_, ?_, fun _ _ _ => rfl, fun _ _ _ => rfl⟩
  · intro p ext r hr
    simp only [ffmpeg_extract, hls] at hr
    rw [if_neg (by simp)] at hr
    split at hr
    · exact (Except.ok.inj hr).symm
    · exact absurd hr (by simp)
  · simp only [ffmpeg_extract, hls]
    rw [if_neg (by simp)]
  · intro ext r hr
    simp only [ffmpeg_extract, hls] at hr
    rw [if_neg (by simp)] at hr
    split at hr
    · refine ⟨(Except.ok.inj hr).symm, "/tmp/tmp" ++ toString st.tempCounter, ?_⟩
      rw [(Except.ok.inj hr).symm]
      simp [tempName, String.append_assoc]
    · exact absurd hr (by simp)

/-- Witness for C3: with local storage, an explicit output path is
returned as-is, and the temp path allocated for `output_ext = "wav"` ends
in `".wav"`. -/
theorem ffmpeg_extract_output_path_witness :
    ("out.avi" : String) = "out.avi"
    ∧ ("/tmp/tmp0.wav" = tempName 0 ("." ++ "wav")
        ∧ ∃ pre, ("/tmp/tmp0.wav" : String) = pre ++ ("." ++ "wav")) :=
  ⟨(ffmpeg_extract_output_path (fun _ => true) (St.mk none (some true) 0 [])
      "in.mp4" none rfl).1 "out.avi" none "out.avi" rfl,
   (ffmpeg_extract_output_path (fun _ => true) (St.mk none (some true) 0 [])
      "in.mp4" none rfl).2.2.1 "wav" "/tmp/tmp0.wav" rfl⟩

/-- C2: `ffmpeg_extract` performs exactly one external-process invocation
per (well-formed, local-storage) call, with no retry: the call trace grows
by exactly one command; on failure the error propagates and no path is
returned; `STORAGE` and `LOCAL_STORAGE` are unchanged in all cases. -/
theorem ffmpeg_extract_single_invocation (check_call : String → Bool) (st : St)
    (inp : String) (ext outp : Option String) (seg : Option (ℚ × ℚ))
    (hls : pyTruthy st.LOCAL_STORAGE = true)
    (hargs : outp ≠ none ∨ ext ≠ none) :
    ∃ cmd : String,
      (ffmpeg_extract check_call st inp ext outp seg).2.calls = st.calls ++ [cmd]
      ∧ (ffmpeg_extract check_call st inp ext outp seg).2.STORAGE = st.STORAGE
      ∧ (ffmpeg_extract check_call st inp ext outp seg).2.LOCAL_STORAGE =
          st.LOCAL_STORAGE
      ∧ (check_call cmd = false →
          (ffmpeg_extract check_call st inp ext outp seg).1 =
            Except.error "CalledProcessError")
      ∧ (check_call cmd = true →
          ∃ rp, (ffmpeg_extract check_call st inp ext outp seg).1 = Except.ok rp) := by
  rcases outp with _ | p
  · rcases ext with _ | e
    · simp at hargs
    · refine ⟨ffmpeg_cmd inp (tempName st.tempCounter ("." ++ e)) seg, ?_⟩
      simp only [ffmpeg_extract, hls]
      rw [if_neg (by simp)]
      rcases hcc : check_call (ffmpeg_cmd inp (tempName st.tempCounter ("." ++ e)) seg)
        with _ | _ <;> simp [hcc]
  · refine ⟨ffmpeg_cmd inp p seg, ?_⟩
    simp only [ffmpeg_extract, hls]
    rw [if_neg (by simp)]
    rcases hcc : check_call (ffmpeg_cmd inp p seg) with _ | _ <;> simp [hcc]

/-- Witness for C2: a failing transcoder run appends exactly one command
to the trace, propagates the failure, and leaves the storage globals
unchanged. -/
theorem ffmpeg_extract_single_invocation_witness :
    ∃ cmd : String,
      (ffmpeg_extract (fun _ => false) (St.mk none (some true) 0 [])
        "in.mp4" none (some "out.avi") none).2.calls = [] ++ [cmd]
      ∧ (ffmpeg_extract (fun _ => false) (St.mk none (some true) 0 [])
          "in.mp4" none (some "out.avi") none).2.STORAGE = none
      ∧ (ffmpeg_extract (fun _ => false) (St.mk none (some true) 0 [])
          "in.mp4" none (some "out.avi") none).2.LOCAL_STORAGE = some true
      ∧ ((fun _ => false : String → Bool) cmd = false →
          (ffmpeg_extract (fun _ => false) (St.mk none (some true) 0 [])
            "in.mp4" none (some "out.avi") none).1 =
              Except.error "CalledProcessError")
      ∧ ((fun _ => false : String → Bool) cmd = true →
          ∃ rp, (ffmpeg_extract (fun _ => false) (St.mk none (some true) 0 [])
            "in.mp4" none (some "out.avi") none).1 = Except.ok rp) :=
  ffmpeg_extract_single_invocation (fun _ => false) (St.mk none (some true) 0 [])
    "in.mp4" none (some "out.avi") none rfl (Or.inl (by simp))

/-- `tile` unfolded at known dimensions. -/
theorem tile_eq_of_dims (imgs : List Img) (ro co : Option Nat) (r c : Nat)
    (hdims : tileDims imgs.length ro co = some (r, c)) :
    tile imgs ro co =
      if r = 0 ∨ c = 0 then (none, paddedImgs imgs r c)
      else
        (some (np_vstack ((List.range r).map (fun i =>
            np_hstack (((paddedImgs imgs r c).drop (i * c)).take c)))),
         paddedImgs imgs r c) := by
  unfold tile paddedImgs
  rw [hdims]

/-- When the dimensions cover the list, the padded list is the input
followed by the black padding (also when no padding was needed). -/
theorem paddedImgs_eq (imgs : List Img) (r c : Nat) (hle : imgs.length ≤ r * c) :
    paddedImgs imgs r c =
      imgs ++ List.replicate (r * c - imgs.length) (blackOf imgs) := by
  unfold paddedImgs
  split
  · rfl
  · rename_i h
    have h0 : r * c - imgs.length = 0 := by
      by_contra hne
      exact h hne
    rw [h0]
    simp

/-- C9: `tile` mutates its input list: when `rows * cols` exceeds
`len(imgs)` it extends the caller's list in place with black images up to
length `rows * cols`; when `rows * cols` equals `len(imgs)` the list is
left unchanged. -/
theorem tile_mutation (imgs : List Img) (ro co : Option Nat) (r c : Nat)
    (hdims : tileDims imgs.length ro co = some (r, c)) :
    (imgs.length < r * c →
      (tile imgs ro co).2 =
        imgs ++ List.replicate (r * c - imgs.length) (blackOf imgs)
      ∧ (tile imgs ro co).2.length = r * c)
    ∧ (r * c = imgs.length → (tile imgs ro co).2 = imgs) := by
  have hsnd : (tile imgs ro co).2 = paddedImgs imgs r c := by
    rw [tile_eq_of_dims imgs ro co r c hdims]
    split <;> rfl
  constructor
  · intro hlt
    have hp := paddedImgs_eq imgs r c (le_of_lt hlt)
    refine ⟨hsnd.trans hp, ?_⟩
    rw [hsnd, hp]
    simp only [List.length_append, List.length_replicate]
    omega
  · intro heq
    rw [hsnd]
    unfold paddedImgs
    rw [if_neg (by rw [heq]; omega)]

/-- Witness for C9: tiling 3 one-pixel images into a requested 2-row grid
pads the caller's list to 4 entries with a black image; the padded list is
observable in `tile`'s second component. -/
theorem tile_mutation_witness :
    (tile [[[1]], [[2]], [[3]]] (some 2) none).2 =
      [[[1]], [[2]], [[3]]] ++
        List.replicate (2 * 2 - 3) (blackOf [[[1]], [[2]], [[3]]])
    ∧ (tile [[[1]], [[2]], [[3]]] (some 2) none).2.length = 2 * 2 :=
  (tile_mutation [[[1]], [[2]], [[3]]] (some 2) none 2 2 (by decide)).1 (by decide)

/-- C1: for a nonempty list of images of equal shape, `tile` returns the
rows-by-cols grid (vertical stack of rows, each a horizontal stack of
cols cells, missing cells black); with neither dimension given,
`rows = int(sqrt(len(imgs)))`, and whichever dimension is unspecified is
the ceiling division of `len(imgs)` by the other. -/
theorem tile_grid (imgs : List Img) (ro co : Option Nat) (r c : Nat)
    (hne : imgs ≠ [])
    (hshape : ∀ im ∈ imgs, Img.shape im = Img.shape (imgs.headD []))
    (hdims : tileDims imgs.length ro co = some (r, c)) :
    (tile imgs ro co).1 = some (gridSpec imgs r c)
    ∧ (ro = none → co = none →
        r = Nat.sqrt imgs.length ∧ c = (imgs.length + r - 1) / r)
    ∧ (∀ c0, ro = none → co = some c0 →
        c = c0 ∧ r = (imgs.length + c - 1) / c)
    ∧ (∀ r0, ro = some r0 → r = r0 ∧ c = (imgs.length + r - 1) / r) := by
  have h0 : 0 < imgs.length := List.length_pos.mpr hne
  obtain ⟨hr, hc, hle⟩ := tileDims_props imgs.length ro co r c h0 hdims
  have hL := paddedImgs_eq imgs r c hle
  have hLlen : (paddedImgs imgs r c).length = r * c := by
    rw [hL]
    simp only [List.length_append, List.length_replicate]
    omega
  refine ⟨?_, ?_, ?_, ?_⟩
  · rw [tile_eq_of_dims imgs ro co r c hdims, if_neg (by omega)]
    show some _ = some _
    congr 1
    unfold gridSpec np_vstack
    congr 1
    apply List.map_congr_left
    intro i hi
    have hi' : i < r := List.mem_range.mp hi
    congr 1
    rw [take_drop_eq_map_getD (paddedImgs imgs r c) (blackOf imgs) (i * c) c
      (by
        rw [hLlen]
        calc i * c + c = (i + 1) * c := (Nat.succ_mul i c).symm
        _ ≤ r * c := Nat.mul_le_mul_right c hi')]
    apply List.map_congr_left
    intro j hj
    rw [hL, getD_append_replicate_self]
    rfl
  · intro h1 h2
    subst h1
    subst h2
    unfold tileDims at hdims
    obtain ⟨e1, e2, _⟩ :=
      tileDims_rowsBranch imgs.length r c (Nat.sqrt imgs.length) h0 hdims
    exact ⟨e1, by rw [e1]; exact e2⟩
  · intro c0 h1 h2
    subst h1
    subst h2
    unfold tileDims at hdims
    obtain ⟨e1, e2, _⟩ := tileDims_colsBranch imgs.length r c c0 h0 hdims
    exact ⟨e1, by rw [e1]; exact e2⟩
  · intro r0 h1
    subst h1
    rcases co with _ | c0 <;>
      · unfold tileDims at hdims
        obtain ⟨e1, e2, _⟩ := tileDims_rowsBranch imgs.length r c r0 h0 hdims
        exact ⟨e1, by rw [e1]; exact e2⟩

/-- Witness for C1: three one-pixel images, no dimensions given:
`rows = int(sqrt(3)) = 1`, `cols = 3`, and the result is the 1-by-3 grid
of the inputs. -/
theorem tile_grid_witness :
    (tile [[[1]], [[2]], [[3]]] none none).1 =
      some (gridSpec [[[1]], [[2]], [[3]]] 1 3) :=
  (tile_grid [[[1]], [[2]], [[3]]] none none 1 3 (by decide) (by decide)
    (by
      have hs : Nat.sqrt 3 = 1 := by
        rw [Nat.sqrt]
        norm_num
        rw [Nat.sqrt.iter]
        norm_num
      show tileDims 3 none none = some (1, 3)
      unfold tileDims
      rw [hs]
      rfl)).1

/-- C10: a function wrapped by `autobatch(uniforms)` satisfies the
batching round-trip: on a single non-list value in a non-uniform position
it wraps every non-uniform argument in a one-element list and returns
element 0 of the wrapped function's result (`wrapped(x) = fn([x])[0]`);
with list-valued non-uniform arguments it passes everything through
unchanged and returns the result as-is. -/
theorem autobatch_roundtrip (uniforms : List (ℤ ⊕ String))
    (fn : List PyVal → List (String × PyVal) → PyVal) :
    (∀ v : PyVal, pyIsList v = false →
      (uniformPositions uniforms).contains 0 = false →
      autobatch uniforms fn [v] [] = pyIndex (fn [PyVal.list [v]] []) 0)
    ∧ (∀ (args : List PyVal) (kwargs : List (String × PyVal)),
      (∀ i : Nat, i < args.length →
        (uniformPositions uniforms).contains (Int.ofNat i) = false →
        pyIsList (args.getD i (PyVal.int 0)) = true) →
      (∃ i : Nat, i < args.length ∧
        (uniformPositions uniforms).contains (Int.ofNat i) = false) →
      autobatch uniforms fn args kwargs = some (fn args kwargs)) := by
  constructor
  · intro v hv h0
    have h0' : ¬ ((0 : ℤ) ∈ uniformPositions uniforms) := by
      simpa using h0
    simp [autobatch, List.range_succ, List.range_zero, h0', hv]
  · intro args kwargs hall hex
    obtain ⟨i, hi, hci⟩ := hex
    simp only [autobatch]
    rw [if_pos (by omega)]
    have hmem : i ∈ (List.range args.length).filter
        (fun i => !(uniformPositions uniforms).contains (Int.ofNat i)) := by
      rw [List.mem_filter]
      exact ⟨List.mem_range.mpr hi, by simpa using hci⟩
    rcases hS : (List.range args.length).filter
        (fun i => !(uniformPositions uniforms).contains (Int.ofNat i)) with _ | ⟨j, t⟩
    · rw [hS] at hmem
      simp at hmem
    · have hjmem : j ∈ (List.range args.length).filter
          (fun i => !(uniformPositions uniforms).contains (Int.ofNat i)) := by
        rw [hS]
        exact List.mem_cons_self j t
      rw [List.mem_filter, List.mem_range] at hjmem
      obtain ⟨hj, hPj⟩ := hjmem
      have hPj' : (uniformPositions uniforms).contains (Int.ofNat j) = false := by
        simpa using hPj
      have hlist : pyIsList (args.getD j (PyVal.int 0)) = true := hall j hj hPj'
      rw [List.getD_eq_getElem args _ hj] at hlist
      simp [List.getElem?_eq_getElem hj, hlist]

/-- Witness for C10 with `uniforms = []` and the probe function: a bare
value is wrapped and unwrapped; a list argument passes through. -/
theorem autobatch_roundtrip_witness :
    autobatch [] fnProbe [PyVal.int 5] [] =
      pyIndex (fnProbe [PyVal.list [PyVal.int 5]] []) 0
    ∧ autobatch [] fnProbe [PyVal.list [PyVal.int 7]] [] =
      some (fnProbe [PyVal.list [PyVal.int 7]] []) :=
  ⟨(autobatch_roundtrip [] fnProbe).1 (PyVal.int 5) rfl rfl,
   (autobatch_roundtrip [] fnProbe).2 [PyVal.list [PyVal.int 7]] []
     (fun i hi _ => by
       simp only [List.length_cons, List.length_nil] at hi
       have h0 : i = 0 := by omega
       subst h0
       rfl)
     ⟨0, by decide, rfl⟩⟩

end Tixelbox
